import Mathlib

/-!
Verification development for the caddy-scion repository.

This file shallowly embeds the parts of the codebase that the specification
talks about:

* the textual SCION UDP address format and the external address parser
  (scionproto's snet.ParseUDPAddr), restricted to the formats the repository
  actually feeds it;
* the reference-counted usage pool (package networks/pool, whose Go source is
  not shipped here, so it is modelled from the specification's contract);
* the native listener (package native, file modelled from part_006):
  Network.Listen, listenerSCIONUDP.listen, sciondConn, findSciond, loadEnv,
  poolKey, conn.Close, conn.Destruct;
* the legacy scion listener (package scion, file modelled from part_000):
  Network.Listen, Network.ListenBlocked, Network.listen, loadEnv, conn.Close,
  conn.Destruct, blockedListener.Accept;
* the header middleware (headers.go): Middleware.ServeHTTP.

Stateful Go code becomes explicit state passing over `World` records; the
process-wide effects that matter to the claims (constructor invocations,
fresh socket identities, the one-shot `closed` channel, os.Exit) are recorded
in those records.  External I/O (the environment file, the SCION daemon, the
transport bind) is represented by explicit fields of the world.
-/

namespace CaddyScion

/-! ## Character-list utilities used by the address parser -/

/-- Split a character list at the first occurrence of `sep`; `none` if `sep`
does not occur.  Mirrors how the textual address format is cut at its
separator characters. -/
def splitFirst (sep : Char) : List Char → Option (List Char × List Char)
  | [] => none
  | c :: cs =>
    if c = sep then some ([], cs)
    else (splitFirst sep cs).map (fun p => (c :: p.1, p.2))

/-- Split a character list at the last occurrence of `sep`. -/
def splitLast (sep : Char) (l : List Char) : Option (List Char × List Char) :=
  (splitFirst sep l.reverse).map (fun p => (p.2.reverse, p.1.reverse))

/-- Numeric value of a decimal digit character. -/
def digitVal (c : Char) : Option Nat :=
  if '0' ≤ c ∧ c ≤ '9' then some (c.toNat - '0'.toNat) else none

/-- Parse a nonempty all-decimal character list into a natural number. -/
def digitsToNat : List Char → Option Nat
  | [] => none
  | l => l.foldl (fun acc c => acc.bind fun n => (digitVal c).map (n * 10 + ·)) (some 0)

/-! ## SCION UDP addresses and the external parser -/

/-- A parsed SCION UDP address: ISD-AS identifier (kept textual), host and
port.  This is the shape the code extracts from snet.ParseUDPAddr and uses
afterwards (laddr.IA, laddr.Host.Port, laddr.String()). -/
structure UDPAddr where
  ia : String
  host : String
  port : Nat
deriving DecidableEq

/-- Build an address from its raw components, enforcing the validity the real
parser enforces on them: a nonempty ISD-AS containing the ISD/AS separator,
a nonempty host, and an all-decimal port. -/
def mkUDPAddr (iaC hostC portC : List Char) : Option UDPAddr :=
  if iaC ≠ [] ∧ iaC.contains '-' ∧ hostC ≠ [] then
    (digitsToNat portC).map (fun p => ⟨String.mk iaC, String.mk hostC, p⟩)
  else none

/-- Model of the external snet.ParseUDPAddr, restricted to the two formats
the repository feeds it: the bare form `ia,host:port` (used in the spec's
scenarios and by the scion package) and the bracketed form `[ia,host]:port`
(produced by net.JoinHostPort in the native package when the host part
contains a colon).  Other inputs are rejected, as the real parser rejects
any string that fits neither shape. -/
def parseUDPAddr (s : String) : Option UDPAddr :=
  match s.data with
  | '[' :: rest =>
    match splitFirst ']' rest with
    | some (inner, tail) =>
      match tail with
      | ':' :: portChars =>
        match splitFirst ',' inner with
        | some (iaC, hostC) => mkUDPAddr iaC hostC portChars
        | none => none
      | _ => none
    | none => none
  | l =>
    match splitFirst ',' l with
    | some (iaC, rest) =>
      match splitLast ':' rest with
      | some (hostC, portChars) => mkUDPAddr iaC hostC portChars
      | none => none
    | none => none

/-- The canonical textual form of a parsed address, mirroring
snet.UDPAddr.String() for the IPv4 hosts used throughout the repository. -/
def UDPAddr.str (a : UDPAddr) : String :=
  a.ia ++ "," ++ a.host ++ ":" ++ Nat.repr a.port

/-- Model of Go's net.JoinHostPort: hosts containing a colon are bracketed. -/
def joinHostPort (host port : String) : String :=
  if host.data.contains ':' then "[" ++ host ++ "]:" ++ port
  else host ++ ":" ++ port

/-! ## The routing-environment file -/

/-- What a read of a path can observe: no file, a file that does not decode
as the expected JSON, or a decoded environment (the `ases` map from ISD-AS
to daemon address). -/
inductive FileContent
  | missing
  | badJson
  | good (ases : List (String × String))
deriving DecidableEq

/-- Association-list lookup with string keys (used for the filesystem, the
environment's `ases` map and the pool's entries). -/
def lookupKey {α : Type} (k : String) : List (String × α) → Option α
  | [] => none
  | (k2, v) :: t => if k2 = k then some v else lookupKey k t

/-- Path of the environment file: the SCION_ENV_FILE environment variable
when nonempty (Go's os.Getenv returns the empty string for an unset
variable), otherwise the fixed default.  Both packages compute exactly this;
the scion package computes it once at process start, the native package on
every load. -/
def envPath (envVar : String) : String :=
  if envVar = "" then "/etc/scion/environment.json" else envVar

/-- Model of loadEnv (part_006 lines 230-244, and part_000 lines 183-193):
read the environment file and decode it; a read or decode failure is an
error. -/
def loadEnv (envVar : String) (fs : List (String × FileContent)) :
    Except String (List (String × String)) :=
  match (lookupKey (envPath envVar) fs).getD .missing with
  | .missing => .error "reading environment file"
  | .badJson => .error "decoding environment file"
  | .good ases => .ok ases

/-! ## The usage pool

Modelled from the spec: the Go source of package networks/pool (the
UsagePool generic with NewUsagePool, LoadOrNew and Delete) is not among the
shipped files — only its callers are — so the pool is modelled from the
specification's contract in section 4.1: LoadOrNew returns the existing
resource with an incremented refcount on a hit and otherwise runs the
constructor and inserts the result with refcount 1 (a failed construction
leaves the pool as if the call never happened); Delete errors on a missing
key, decrements a refcount above one, and at refcount one removes the entry
and runs the resource's teardown exactly once, propagating its error without
re-inserting.  The `calls` field is instrumentation counting LoadOrNew
invocations; it is not part of the Go state. -/

/-- One pool entry: a reference count and the shared resource. -/
structure PoolEntry (V : Type) where
  refs : Nat
  val : V
deriving DecidableEq

/-- The keyed reference-counted pool.  Keys are strings, as in every use in
the repository. -/
structure UsagePool (V : Type) where
  entries : List (String × PoolEntry V)
  calls : Nat
deriving DecidableEq

/-- The empty pool, as built by NewUsagePool. -/
def UsagePool.new (V : Type) : UsagePool V := ⟨[], 0⟩

/-- Replace the entry stored under `k` (first occurrence). -/
def updEntry {V : Type} (k : String) (f : PoolEntry V → PoolEntry V) :
    List (String × PoolEntry V) → List (String × PoolEntry V)
  | [] => []
  | (k2, e) :: t => if k2 = k then (k2, f e) :: t else (k2, e) :: updEntry k f t

/-- Remove the entry stored under `k` (first occurrence). -/
def eraseKey {V : Type} (k : String) :
    List (String × PoolEntry V) → List (String × PoolEntry V)
  | [] => []
  | (k2, e) :: t => if k2 = k then t else (k2, e) :: eraseKey k t

/-- Modelled from the spec (section 4.1): LoadOrNew.  The constructor is a
state transformer over the ambient world `σ` and may fail with an error of
type `E`.  Returns (result with wasReused flag, updated pool, updated
world). -/
def UsagePool.loadOrNew {V σ E : Type} (p : UsagePool V) (k : String)
    (ctor : σ → Except E V × σ) (s : σ) :
    Except E (V × Bool) × UsagePool V × σ :=
  let p1 : UsagePool V := { p with calls := p.calls + 1 }
  match lookupKey k p.entries with
  | some e =>
    (.ok (e.val, true),
     { p1 with entries := updEntry k (fun e2 => ⟨e2.refs + 1, e2.val⟩) p1.entries }, s)
  | none =>
    match ctor s with
    | (.error err, s2) => (.error err, p1, s2)
    | (.ok v, s2) =>
      (.ok (v, false), { p1 with entries := (k, ⟨1, v⟩) :: p1.entries }, s2)

/-- Modelled from the spec (section 4.1): Delete.  The teardown callback is a
state transformer returning an optional error.  Returns ((destroyed, error),
updated pool, updated world), mirroring Go's (bool, error) pair. -/
def UsagePool.delete {V σ : Type} (p : UsagePool V) (k : String)
    (destruct : V → σ → Option String × σ) (s : σ) :
    (Bool × Option String) × UsagePool V × σ :=
  match lookupKey k p.entries with
  | none => ((false, some "deleting unknown key"), p, s)
  | some e =>
    if e.refs ≤ 1 then
      let d := destruct e.val s
      ((true, d.1), { p with entries := eraseKey k p.entries }, d.2)
    else
      ((false, none),
       { p with entries := updEntry k (fun e2 => ⟨e2.refs - 1, e2.val⟩) p.entries }, s)

/-! ## The native listener (package native, part_006) -/

/-- The connection resource stored in the native pool: the bound packet
socket (represented by a fresh identity) and the canonical address text the
code stores in conn.addr (laddr.String()). -/
structure NConn where
  id : Nat
  addr : String
deriving DecidableEq

/-- The ambient state the native package's code interacts with: the
SCION_ENV_FILE variable, the filesystem, whether the external daemon
connection and the transport bind succeed, the supply of fresh socket
identities, an instrumentation counter of constructor invocations, and the
set of closed sockets. -/
structure NWorld where
  envVar : String
  fs : List (String × FileContent)
  daemonOK : Bool
  bindOK : Bool
  nextId : Nat
  ctorCount : Nat
  sockClosed : List Nat
deriving DecidableEq

/-- Errors a native construction can produce: an ordinary error message, or
a process termination (sciondConn calls os.Exit(1) when loading the
environment fails). -/
inductive NErr
  | msg (s : String)
  | procExit (code : Nat)
deriving DecidableEq

/-- Model of findSciond (part_006 lines 218-228): look the ISD-AS up in the
environment and connect to its daemon (external I/O, represented by the
world's daemonOK flag). -/
def findSciond (w : NWorld) (ases : List (String × String)) (ia : String) :
    Except String String :=
  match lookupKey ia ases with
  | none => .error "AS not found in environment"
  | some daddr => if w.daemonOK then .ok daddr else .error "unable to connect to SCIOND"

/-- Model of sciondConn (part_006 lines 201-216): load the environment file;
on a load failure the Go code prints to stderr and calls os.Exit(1), which
the model records as the procExit outcome; otherwise resolve the daemon via
findSciond. -/
def sciondConn (w : NWorld) (ia : String) : Except NErr String :=
  match loadEnv w.envVar w.fs with
  | .error _ => .error (.procExit 1)
  | .ok ases =>
    match findSciond w ases ia with
    | .error e => .error (.msg e)
    | .ok daddr => .ok daddr

/-- Model of listenerSCIONUDP.listen (part_006 lines 131-164): connect to the
daemon, then bind the transport socket; on success the conn stores the
canonical address laddr.String().  The ctorCount bump records that the
constructor callback was invoked. -/
def nativeCtor (laddr : UDPAddr) (w : NWorld) : Except NErr NConn × NWorld :=
  let w1 : NWorld := { w with ctorCount := w.ctorCount + 1 }
  match sciondConn w1 laddr.ia with
  | .error e => (.error e, w1)
  | .ok _ =>
    if w1.bindOK then
      (.ok ⟨w1.nextId, laddr.str⟩, { w1 with nextId := w1.nextId + 1 })
    else (.error (.msg "failed to listen on scion+udp"), w1)

/-- Model of poolKey (part_006 lines 197-199). -/
def poolKey (network address : String) : String := network ++ ":" ++ address

/-- Outcome of a Listen call: a resource together with the reuse flag, an
error returned to the caller, or a process termination. -/
inductive LResult (V : Type)
  | ok (v : V) (reused : Bool)
  | err (msg : String)
  | exited (code : Nat)
deriving DecidableEq

/-- Model of Network.Listen (part_006 lines 90-126): validate the network
name, the port range, the port offset, the parsed address and the port;
then call Pool.LoadOrNew under poolKey(network, laddr.String()) with the
listenerSCIONUDP constructor. -/
def nativeListen (network host portRange : String) (portOffset : Nat)
    (p : UsagePool NConn) (w : NWorld) :
    LResult NConn × UsagePool NConn × NWorld :=
  if network ≠ "scion+udp" then (.err "unsupported network", p, w)
  else if portRange.data.contains '-' then
    (.err "port ranges are not supported for SCION listeners", p, w)
  else if portOffset ≠ 0 then
    (.err "port offsets are not supported for SCION UDP listeners", p, w)
  else
    match parseUDPAddr (joinHostPort host portRange) with
    | none => (.err "parsing listening address", p, w)
    | some laddr =>
      if laddr.port = 0 then (.err "wildcard port not supported", p, w)
      else
        match p.loadOrNew (poolKey network laddr.str) (nativeCtor laddr) w with
        | (.error (.procExit c), p2, w2) => (.exited c, p2, w2)
        | (.error (.msg m), p2, w2) => (.err m, p2, w2)
        | (.ok (c, loaded), p2, w2) => (.ok c loaded, p2, w2)

/-- Model of the native conn.Destruct (part_006 lines 181-186): close the
wrapped packet socket. -/
def nativeDestruct (c : NConn) (w : NWorld) : Option String × NWorld :=
  (none, { w with sockClosed := c.id :: w.sockClosed })

/-- Model of the native conn.Close (part_006 lines 174-177): drop one pool
reference under poolKey(SCIONUDP, c.addr); the pool runs Destruct when the
count reaches zero. -/
def nativeClose (c : NConn) (p : UsagePool NConn) (w : NWorld) :
    Option String × UsagePool NConn × NWorld :=
  match p.delete (poolKey "scion+udp" c.addr) nativeDestruct w with
  | ((_, err), p2, w2) => (err, p2, w2)

/-- The key a native Listen call hands to Pool.LoadOrNew, as the pure
function of the call's inputs that the validation prefix of Network.Listen
computes; `none` when validation fails before the pool is reached. -/
def nativeListenKey (network host portRange : String) (portOffset : Nat) :
    Option String :=
  if network ≠ "scion+udp" then none
  else if portRange.data.contains '-' then none
  else if portOffset ≠ 0 then none
  else
    match parseUDPAddr (joinHostPort host portRange) with
    | none => none
    | some laddr =>
      if laddr.port = 0 then none else some (poolKey network laddr.str)

/-! ## The legacy scion listener (package scion, part_000) -/

/-- The connection resource of the scion package: the bound packet socket
identity, the raw address text stored in conn.addr, and (through the world)
the one-shot `closed` channel. -/
structure SConn where
  id : Nat
  addr : String
deriving DecidableEq

/-- Ambient state for the scion package: environment configuration, bind
success, fresh identities, constructor instrumentation, the set of conns
whose one-shot `closed` channel has been closed, and the set of closed
sockets. -/
structure SWorld where
  envVar : String
  fs : List (String × FileContent)
  bindOK : Bool
  nextId : Nat
  ctorCount : Nat
  chanClosed : List Nat
  sockClosed : List Nat
deriving DecidableEq

/-- Model of the constructor closure in Network.listen (part_000 lines
161-175): bind the transport socket; the resulting conn stores the raw
`address` argument and a fresh `closed` channel underneath. -/
def scionCtor (address : String) (w : SWorld) : Except String SConn × SWorld :=
  let w1 : SWorld := { w with ctorCount := w.ctorCount + 1 }
  if w1.bindOK then
    (.ok ⟨w1.nextId, address⟩, { w1 with nextId := w1.nextId + 1 })
  else (.error "bind failed", w1)

/-- Model of Network.listen (part_000 lines 121-181): parse the address,
reject a wildcard port, load the environment, require the ISD-AS to be
covered, then call connPool.LoadOrNew keyed by the raw address string. -/
def scionNetListen (address : String) (p : UsagePool SConn) (w : SWorld) :
    LResult SConn × UsagePool SConn × SWorld :=
  match parseUDPAddr address with
  | none => (.err "parsing listening address", p, w)
  | some laddr =>
    if laddr.port = 0 then (.err "wildcard port not supported", p, w)
    else
      match loadEnv w.envVar w.fs with
      | .error _ => (.err "loading environment configuration data", p, w)
      | .ok ases =>
        match lookupKey laddr.ia ases with
        | none => (.err "listening address not covered by configured ASes", p, w)
        | some _ =>
          match p.loadOrNew address (scionCtor address) w with
          | (.error m, p2, w2) => (.err m, p2, w2)
          | (.ok (c, loaded), p2, w2) => (.ok c loaded, p2, w2)

/-- Model of Network.Listen (part_000 lines 101-115): only the scion+quic
network name is served; the result is the pooled packet conn itself. -/
def scionListenQuic (network address : String) (p : UsagePool SConn) (w : SWorld) :
    LResult SConn × UsagePool SConn × SWorld :=
  if network ≠ "scion+quic" then (.err "network not supported", p, w)
  else scionNetListen address p w

/-- Model of Network.ListenBlocked (part_000 lines 83-97): only the scion
network name is served; the result wraps the same pooled conn in a
blockedListener. -/
def scionListenBlocked (network address : String) (p : UsagePool SConn) (w : SWorld) :
    LResult SConn × UsagePool SConn × SWorld :=
  if network ≠ "scion" then (.err "network not supported", p, w)
  else scionNetListen address p w

/-- Model of the scion conn.Destruct (part_000 lines 211-217): close the
one-shot `closed` channel, then close the packet socket. -/
def scionDestruct (c : SConn) (w : SWorld) : Option String × SWorld :=
  (none, { w with chanClosed := c.id :: w.chanClosed, sockClosed := c.id :: w.sockClosed })

/-- Model of the scion conn.Close (part_000 lines 204-207): drop one pool
reference under the conn's raw address key. -/
def scionClose (c : SConn) (p : UsagePool SConn) (w : SWorld) :
    Option String × UsagePool SConn × SWorld :=
  match p.delete c.addr scionDestruct w with
  | ((_, err), p2, w2) => (err, p2, w2)

/-- Model of blockedListener.Accept (part_000 lines 225-232): the call is
pending (`none`) until the conn's `closed` channel is closed; once it is, it
returns a nil connection (`none` in the pair) and the "listener closed"
error. -/
def blockedAccept (c : SConn) (w : SWorld) : Option (Option Nat × String) :=
  if w.chanClosed.contains c.id then some (none, "listener closed") else none

/-! ## The header middleware (headers.go) -/

/-- An HTTP request as the middleware sees it: the remote address and the
header list (Header.Add appends a key/value pair). -/
structure HRequest where
  remoteAddr : String
  headers : List (String × String)
deriving DecidableEq

/-- Model of Middleware.ServeHTTP (headers.go lines 40-48): tag the request
with X-SCION on/off (and the remote address when it parses as a SCION UDP
address), then delegate to the next handler and return its result. -/
def serveHTTP {α : Type} (next : HRequest → α) (r : HRequest) : α :=
  match parseUDPAddr r.remoteAddr with
  | some _ =>
    next { r with
           headers := r.headers ++ [("X-SCION", "on"), ("X-SCION-Remote-Addr", r.remoteAddr)] }
  | none => next { r with headers := r.headers ++ [("X-SCION", "off")] }

/-! ## Interleaved LoadOrNew for one key

Modelled from the spec: the concurrency behaviour of the missing pool source
(networks/pool) for a single key, following section 4.1 and section 5 of the
specification.  N callers concurrently invoke LoadOrNew with the same key
and a constructor that counts its own invocations and always succeeds (the
scenario of testable property 1).  A caller atomically either

* claims construction (possible only while no entry exists and no other
  construction is in flight — the "constructing" marker),
* finishes its construction (inserting the entry with refcount 1 and
  clearing the marker), or
* reuses an existing entry (incrementing its refcount).

A caller that finds a construction in flight takes no step until that
construction finishes, which models waiting for it.  `counter` counts
constructor invocations, incremented when a construction is claimed. -/

/-- The phase a single LoadOrNew caller is in. -/
inductive CState
  | idle
  | constructing
  | doneNew
  | doneReused
deriving DecidableEq

/-- The joint state of the pool (restricted to one key) and the N callers. -/
structure FState (N : Nat) where
  caller : Fin N → CState
  marker : Bool
  entry : Option Nat
  counter : Nat

/-- All callers about to call LoadOrNew; no entry, no construction, no
constructor invocation yet. -/
def initF (N : Nat) : FState N := ⟨fun _ => .idle, false, none, 0⟩

/-- One atomic step of the interleaved execution. -/
inductive FStep {N : Nat} : FState N → FState N → Prop
  | claim (s : FState N) (i : Fin N) (hc : s.caller i = .idle)
      (hm : s.marker = false) (he : s.entry = none) :
      FStep s ⟨Function.update s.caller i .constructing, true, none, s.counter + 1⟩
  | finish (s : FState N) (i : Fin N) (hc : s.caller i = .constructing) :
      FStep s ⟨Function.update s.caller i .doneNew, false, some 1, s.counter⟩
  | reuse (s : FState N) (i : Fin N) (r : Nat) (hc : s.caller i = .idle)
      (he : s.entry = some r) :
      FStep s ⟨Function.update s.caller i .doneReused, s.marker, some (r + 1), s.counter⟩

/-- States reachable from the initial state by interleaving. -/
def FReach (N : Nat) (s : FState N) : Prop :=
  Relation.ReflTransGen FStep (initF N) s

/-- Decidable characterisation of "some step is enabled". -/
def FCanStep {N : Nat} (s : FState N) : Prop :=
  ∃ i : Fin N,
    (s.caller i = .idle ∧ s.marker = false ∧ s.entry = none) ∨
    (s.caller i = .idle ∧ s.entry.isSome = true) ∨
    s.caller i = .constructing

instance {N : Nat} (s : FState N) : Decidable (FCanStep s) := by
  unfold FCanStep; infer_instance

/-- The inductive invariant of the interleaved execution. -/
structure FInv {N : Nat} (s : FState N) : Prop where
  one_flight : ∀ i j, s.caller i = .constructing → s.caller j = .constructing → i = j
  marker_iff : s.marker = true ↔ ∃ i, s.caller i = .constructing
  count_eq : s.counter
      = (if s.marker then 1 else 0) + (if s.entry.isSome then 1 else 0)
  marker_entry : s.marker = true → s.entry = none
  new_unique : ∀ i j, s.caller i = .doneNew → s.caller j = .doneNew → i = j
  entry_iff_new : s.entry.isSome = true ↔ ∃ i, s.caller i = .doneNew
  reused_entry : ∀ i, s.caller i = .doneReused → s.entry.isSome = true

/-! ## Concrete scenario data used by the theorems -/

/-- The canonical test address of the specification's scenarios. -/
def reuseAddr : String := "1-ff00:0:112,127.0.0.1:7443"

/-- A world in which the default environment file covers 1-ff00:0:112 and
every external operation succeeds. -/
def reuseWorld : NWorld :=
  { envVar := ""
    fs := [("/etc/scion/environment.json", .good [("1-ff00:0:112", "127.0.0.1:30255")])]
    daemonOK := true, bindOK := true, nextId := 0, ctorCount := 0, sockClosed := [] }

/-- The connection the first construction in `reuseWorld` produces. -/
def c2conn : NConn := ⟨0, reuseAddr⟩

/-- First Listen call of the end-to-end reuse scenario. -/
def c2s1 := nativeListen "scion+udp" "1-ff00:0:112,127.0.0.1" "7443" 0 (UsagePool.new NConn) reuseWorld

/-- Second Listen call for the same address, no intervening Close. -/
def c2s2 := nativeListen "scion+udp" "1-ff00:0:112,127.0.0.1" "7443" 0 c2s1.2.1 c2s1.2.2

/-- First Close of the shared connection. -/
def c2c1 := nativeClose c2conn c2s2.2.1 c2s2.2.2

/-- Second Close of the shared connection. -/
def c2c2 := nativeClose c2conn c2c1.2.1 c2c1.2.2

/-- Third Listen call, after both wrappers were closed. -/
def c2s3 := nativeListen "scion+udp" "1-ff00:0:112,127.0.0.1" "7443" 0 c2c2.2.1 c2c2.2.2

/-- A world whose environment covers only the foreign AS 1-ff00:0:300. -/
def c3world : NWorld :=
  { envVar := ""
    fs := [("/etc/scion/environment.json", .good [("1-ff00:0:300", "127.0.0.1:30255")])]
    daemonOK := true, bindOK := true, nextId := 0, ctorCount := 0, sockClosed := [] }

/-- A native Listen call for an AS absent from the routing configuration. -/
def c3res := nativeListen "scion+udp" "1-ff00:0:112,127.0.0.1" "7443" 0
  (UsagePool.new NConn) c3world

/-- The parse of the scenario address. -/
def c3laddr : UDPAddr := ⟨"1-ff00:0:112", "127.0.0.1", 7443⟩

/-- A world whose default-path environment file holds malformed JSON. -/
def c5world : NWorld :=
  { envVar := ""
    fs := [("/etc/scion/environment.json", .badJson)]
    daemonOK := true, bindOK := true, nextId := 0, ctorCount := 0, sockClosed := [] }

/-- The environment content used in the loader scenarios. -/
def c9ases : List (String × String) := [("1-ff00:0:112", "127.0.0.1:30255")]

/-- SCION_ENV_FILE points at a custom path that has no file, while a good
file sits at the default path (which must therefore be ignored). -/
def c9missing : NWorld :=
  { envVar := "/tmp/scion-env.json"
    fs := [("/etc/scion/environment.json", .good c9ases)]
    daemonOK := true, bindOK := true, nextId := 0, ctorCount := 0, sockClosed := [] }

/-- The same world after the custom-path file appears on disk. -/
def c9present : NWorld :=
  { c9missing with
    fs := [("/etc/scion/environment.json", .good c9ases),
           ("/tmp/scion-env.json", .good c9ases)] }

/-- The same world with SCION_ENV_FILE unset (default path applies). -/
def c9default : NWorld := { c9missing with envVar := "" }

/-- A scion-package world with a good default environment file. -/
def c8world : SWorld :=
  ⟨"", [("/etc/scion/environment.json", .good [("1-ff00:0:112", "127.0.0.1:30255")])],
   true, 0, 0, [], []⟩

/-- The raw address both schemes listen on. -/
def c8addr : String := "1-ff00:0:112,127.0.0.1:7443"

/-- A ListenBlocked call under the scion scheme. -/
def c8r1 := scionListenBlocked "scion" c8addr (UsagePool.new SConn) c8world

/-- A Listen call under the scion+quic scheme for the same address. -/
def c8r2 := scionListenQuic "scion+quic" c8addr c8r1.2.1 c8r1.2.2

/-- A pooled scion connection with two outstanding references. -/
def c6conn : SConn := ⟨0, "1-ff00:0:112,127.0.0.1:7443"⟩

/-- The pool holding `c6conn` at refcount 2. -/
def c6pool : UsagePool SConn := ⟨[("1-ff00:0:112,127.0.0.1:7443", ⟨2, c6conn⟩)], 2⟩

/-- A world in which the close signal of `c6conn` has not fired. -/
def c6world : SWorld := ⟨"", [], true, 1, 1, [], []⟩

/-- A pooled scion connection with a single outstanding reference. -/
def c7conn : SConn := ⟨5, "1-ff00:0:112,127.0.0.1:7443"⟩

/-- The pool holding `c7conn` at refcount 1. -/
def c7pool : UsagePool SConn := ⟨[("1-ff00:0:112,127.0.0.1:7443", ⟨1, c7conn⟩)], 1⟩

/-- A world in which the close signal of `c7conn` has not fired. -/
def c7world : SWorld := ⟨"", [], true, 6, 1, [], []⟩

/-- Final state of a two-caller single-flight run: caller 0 constructed the
entry, caller 1 reused it. -/
def flightDemo : FState 2 :=
  ⟨Function.update (Function.update (Function.update
      (fun _ => CState.idle) 0 .constructing) 0 .doneNew) 1 .doneReused,
    false, some 2, 1⟩

/-! ## Theorems -/

/-- The initial state satisfies the single-flight invariant. -/
theorem finv_init (N : Nat) : FInv (initF N) := by
  constructor <;> simp [initF]

/-- Every interleaved step preserves the single-flight invariant. -/
theorem finv_step {N : Nat} {s t : FState N} (hs : FInv s) (h : FStep s t) : FInv t := by
  cases h with
  | claim i hc hm he =>
    refine ⟨?_, ?_, ?_, ?_, ?_, ?_, ?_⟩ <;> dsimp only
    · intro a b ha hb
      have key : ∀ c : Fin N, Function.update s.caller i CState.constructing c
          = .constructing → c = i := by
        intro c hcc
        by_contra hne
        rw [Function.update_noteq hne] at hcc
        exact absurd (hs.marker_iff.mpr ⟨c, hcc⟩) (by simp [hm])
      rw [key a ha, key b hb]
    · simp only [true_iff]
      exact ⟨i, Function.update_same i _ _⟩
    · have hce := hs.count_eq
      rw [hm, he] at hce
      simp at hce
      simp [hce]
    · intro _; rfl
    · intro a b ha hb
      have ha2 : s.caller a = .doneNew := by
        by_cases hai : a = i
        · subst hai; rw [Function.update_same] at ha; exact absurd ha (by simp)
        · rwa [Function.update_noteq hai] at ha
      have hb2 : s.caller b = .doneNew := by
        by_cases hbi : b = i
        · subst hbi; rw [Function.update_same] at hb; exact absurd hb (by simp)
        · rwa [Function.update_noteq hbi] at hb
      exact hs.new_unique a b ha2 hb2
    · constructor
      · intro h; exact absurd h (by simp)
      · rintro ⟨a, ha⟩
        have ha2 : s.caller a = .doneNew := by
          by_cases hai : a = i
          · subst hai; rw [Function.update_same] at ha; exact absurd ha (by simp)
          · rwa [Function.update_noteq hai] at ha
        have hx := hs.entry_iff_new.mpr ⟨a, ha2⟩
        rw [he] at hx
        exact absurd hx (by simp)
    · intro a ha
      have ha2 : s.caller a = .doneReused := by
        by_cases hai : a = i
        · subst hai; rw [Function.update_same] at ha; exact absurd ha (by simp)
        · rwa [Function.update_noteq hai] at ha
      have hx := hs.reused_entry a ha2
      rw [he] at hx
      exact absurd hx (by simp)
  | finish i hc =>
    have hmarker : s.marker = true := hs.marker_iff.mpr ⟨i, hc⟩
    have hentry : s.entry = none := hs.marker_entry hmarker
    have hnocon : ∀ a, a ≠ i → s.caller a ≠ .constructing := by
      intro a hne hcon
      exact hne (hs.one_flight a i hcon hc)
    have nocon2 : ∀ c : Fin N, Function.update s.caller i CState.doneNew c
        ≠ .constructing := by
      intro c hcc
      by_cases hci : c = i
      · subst hci; rw [Function.update_same] at hcc; exact absurd hcc (by simp)
      · rw [Function.update_noteq hci] at hcc; exact hnocon c hci hcc
    refine ⟨?_, ?_, ?_, ?_, ?_, ?_, ?_⟩ <;> dsimp only
    · intro a b ha hb
      exact absurd ha (nocon2 a)
    · constructor
      · intro h; exact absurd h (by simp)
      · rintro ⟨a, ha⟩
        exact absurd ha (nocon2 a)
    · have hce := hs.count_eq
      rw [hmarker, hentry] at hce
      simp at hce
      simp [hce]
    · intro h; exact absurd h (by simp)
    · intro a b ha hb
      have key : ∀ c : Fin N, Function.update s.caller i CState.doneNew c = .doneNew → c = i := by
        intro c hcc
        by_contra hne
        rw [Function.update_noteq hne] at hcc
        have hx := hs.entry_iff_new.mpr ⟨c, hcc⟩
        rw [hentry] at hx
        exact absurd hx (by simp)
      rw [key a ha, key b hb]
    · constructor
      · intro _; exact ⟨i, Function.update_same i _ _⟩
      · intro _; simp
    · intro a ha; simp
  | reuse i r hc he =>
    have hmarker : s.marker = false := by
      cases hm : s.marker with
      | false => rfl
      | true => rw [hs.marker_entry hm] at he; exact absurd he (by simp)
    refine ⟨?_, ?_, ?_, ?_, ?_, ?_, ?_⟩ <;> dsimp only
    · intro a b ha hb
      have ha2 : s.caller a = .constructing := by
        by_cases hai : a = i
        · subst hai; rw [Function.update_same] at ha; exact absurd ha (by simp)
        · rwa [Function.update_noteq hai] at ha
      have hb2 : s.caller b = .constructing := by
        by_cases hbi : b = i
        · subst hbi; rw [Function.update_same] at hb; exact absurd hb (by simp)
        · rwa [Function.update_noteq hbi] at hb
      exact hs.one_flight a b ha2 hb2
    · constructor
      · intro h
        obtain ⟨a, ha⟩ := hs.marker_iff.mp h
        have hai : a ≠ i := by intro hx; subst hx; rw [hc] at ha; exact absurd ha (by simp)
        refine ⟨a, ?_⟩
        rw [Function.update_noteq hai]
        exact ha
      · rintro ⟨a, ha⟩
        have ha2 : s.caller a = .constructing := by
          by_cases hai : a = i
          · subst hai; rw [Function.update_same] at ha; exact absurd ha (by simp)
          · rwa [Function.update_noteq hai] at ha
        exact hs.marker_iff.mpr ⟨a, ha2⟩
    · have hce := hs.count_eq
      rw [he] at hce
      simp at hce
      simp [hce]
    · intro h; rw [hmarker] at h; exact absurd h (by simp)
    · intro a b ha hb
      have ha2 : s.caller a = .doneNew := by
        by_cases hai : a = i
        · subst hai; rw [Function.update_same] at ha; exact absurd ha (by simp)
        · rwa [Function.update_noteq hai] at ha
      have hb2 : s.caller b = .doneNew := by
        by_cases hbi : b = i
        · subst hbi; rw [Function.update_same] at hb; exact absurd hb (by simp)
        · rwa [Function.update_noteq hbi] at hb
      exact hs.new_unique a b ha2 hb2
    · constructor
      · intro _
        obtain ⟨a, ha⟩ := hs.entry_iff_new.mp (by rw [he]; rfl)
        have hai : a ≠ i := by intro hx; subst hx; rw [hc] at ha; exact absurd ha (by simp)
        refine ⟨a, ?_⟩
        rw [Function.update_noteq hai]
        exact ha
      · intro _; simp
    · intro a ha; simp

/-- The invariant holds in every reachable state. -/
theorem finv_reach {N : Nat} {s : FState N} (h : FReach N s) : FInv s := by
  induction h with
  | refl => exact finv_init N
  | tail _ hstep ih => exact finv_step ih hstep

/-- A state has an outgoing step exactly when `FCanStep` holds, giving a
decidable characterisation of terminal states. -/
theorem fstep_iff {N : Nat} (s : FState N) : (∃ t, FStep s t) ↔ FCanStep s := by
  constructor
  · rintro ⟨t, h⟩
    cases h with
    | claim i hc hm he => exact ⟨i, .inl ⟨hc, hm, he⟩⟩
    | finish i hc => exact ⟨i, .inr (.inr hc)⟩
    | reuse i r hc he => exact ⟨i, .inr (.inl ⟨hc, by rw [he]; rfl⟩)⟩
  · rintro ⟨i, h | h | h⟩
    · exact ⟨_, .claim s i h.1 h.2.1 h.2.2⟩
    · obtain ⟨r, hr⟩ := Option.isSome_iff_exists.mp h.2
      exact ⟨_, .reuse s i r h.1 hr⟩
    · exact ⟨_, .finish s i h⟩

/-- Progress: while some caller has not completed, a step is enabled. -/
theorem fprogress {N : Nat} {s : FState N} (hs : FInv s) (i : Fin N)
    (h : s.caller i ≠ .doneNew ∧ s.caller i ≠ .doneReused) : FCanStep s := by
  cases hcs : s.caller i with
  | constructing => exact ⟨i, .inr (.inr hcs)⟩
  | doneNew => exact absurd hcs h.1
  | doneReused => exact absurd hcs h.2
  | idle =>
    cases hen : s.entry with
    | some r => exact ⟨i, .inr (.inl ⟨hcs, by rw [hen]; rfl⟩)⟩
    | none =>
      cases hm : s.marker with
      | false => exact ⟨i, .inl ⟨hcs, hm, hen⟩⟩
      | true =>
        obtain ⟨j, hj⟩ := hs.marker_iff.mp hm
        exact ⟨j, .inr (.inr hj)⟩

/-- The demo final state is reachable: claim, finish, reuse. -/
theorem flightDemoReach : FReach 2 flightDemo :=
  .head (.claim (initF 2) 0 rfl rfl rfl)
    (.head (.finish _ 0 rfl)
      (.head (.reuse _ 1 1 rfl rfl) .refl))

/-- Claim C1: when N callers concurrently invoke LoadOrNew with the same key
and an always-succeeding, invocation-counting constructor, at most one
constructor callback for the key runs at any time; and in every terminal
state the constructor has been invoked exactly once, every caller has
completed successfully, and exactly one caller (N-1 excepted) obtained
wasReused = false. -/
theorem c1_loadOrNew_single_flight (N : Nat) (hN : 0 < N) (s : FState N)
    (hr : FReach N s) :
    (∀ i j, s.caller i = .constructing → s.caller j = .constructing → i = j) ∧
    ((¬ ∃ t, FStep s t) →
      s.counter = 1 ∧
      (∀ i, s.caller i = .doneNew ∨ s.caller i = .doneReused) ∧
      ∃ i, s.caller i = .doneNew ∧ ∀ j, j ≠ i → s.caller j = .doneReused) := by
  have hs := finv_reach hr
  refine ⟨hs.one_flight, fun hterm => ?_⟩
  have hdone : ∀ i, s.caller i = .doneNew ∨ s.caller i = .doneReused := by
    intro i
    by_contra hcon
    push_neg at hcon
    exact hterm ((fstep_iff s).mpr (fprogress hs i hcon))
  have hentry : s.entry.isSome = true := by
    rcases hdone ⟨0, hN⟩ with h | h
    · exact hs.entry_iff_new.mpr ⟨_, h⟩
    · exact hs.reused_entry _ h
  have hmf : s.marker = false := by
    cases hm : s.marker with
    | false => rfl
    | true =>
      obtain ⟨j, hj⟩ := hs.marker_iff.mp hm
      rcases hdone j with h | h <;> rw [hj] at h <;> exact absurd h (by simp)
  refine ⟨?_, hdone, ?_⟩
  · have hce := hs.count_eq
    rw [hmf, hentry] at hce
    simpa using hce
  · obtain ⟨i, hi⟩ := hs.entry_iff_new.mp hentry
    refine ⟨i, hi, fun j hj => ?_⟩
    rcases hdone j with h | h
    · exact absurd (hs.new_unique j i h hi) hj
    · exact h

/-- Witness for C1 at N = 2 on the concrete reachable terminal state. -/
theorem c1_loadOrNew_single_flight_witness :
    (0 : Nat) < 2 ∧ FReach 2 flightDemo ∧ ¬ FCanStep flightDemo ∧
    (flightDemo.counter = 1 ∧
      (∀ i, flightDemo.caller i = .doneNew ∨ flightDemo.caller i = .doneReused) ∧
      ∃ i, flightDemo.caller i = .doneNew ∧
        ∀ j, j ≠ i → flightDemo.caller j = .doneReused) := by
  refine ⟨by decide, flightDemoReach, by decide, ?_⟩
  exact (c1_loadOrNew_single_flight 2 (by decide) flightDemo flightDemoReach).2
    (fun hex => absurd ((fstep_iff flightDemo).mp hex) (by decide))

/-- Claim C2: two sequential Listen calls for 1-ff00:0:112,127.0.0.1:7443
under the scion+udp scheme, with no intervening Close, return the identical
pooled connection (the second with wasReused = true) and the constructor ran
once; after both are closed the entry is gone, the socket closed, and a
third Listen constructs a fresh connection (a new identity), running the
constructor a second time. -/
theorem c2_listen_reuse_scenario :
    c2s1.1 = .ok c2conn false ∧
    c2s2.1 = .ok c2conn true ∧
    c2s2.2.2.ctorCount = 1 ∧
    c2s2.2.1.entries = [(poolKey "scion+udp" reuseAddr, ⟨2, c2conn⟩)] ∧
    c2c2.2.1.entries = [] ∧
    c2c2.2.2.sockClosed = [0] ∧
    c2s3.1 = .ok ⟨1, reuseAddr⟩ false ∧
    (⟨1, reuseAddr⟩ : NConn) ≠ c2conn ∧
    c2s3.2.2.ctorCount = 2 := by decide

/-- Counterexample to claim C3 as stated: a native Listen for an address
whose routing domain is absent from the environment returns an error, yet
Pool.LoadOrNew was invoked (the pool's call counter and the constructor's
invocation counter both advanced); the pool's entries are unchanged. -/
theorem c3_unknown_domain_counterexample :
    c3res.1 = .err "AS not found in environment" ∧
    c3res.2.1.calls = 1 ∧
    c3res.2.2.ctorCount = 1 ∧
    c3res.2.1.entries = [] := by decide

/-- Claim C3 as amended: configuration errors detected before the pool
(unsupported scheme, port range, nonzero port offset, unparsable address,
wildcard port - exactly the inputs on which nativeListenKey is none) make
Listen return an error with the pool and world untouched and LoadOrNew never
called; an unknown routing domain also makes Listen return an error with the
pool's entries unchanged, but the check runs inside the constructor, so
LoadOrNew is invoked and the constructor runs and fails. -/
theorem c3_config_errors_amended :
    (∀ (network host portRange : String) (portOffset : Nat)
        (p : UsagePool NConn) (w : NWorld),
      nativeListenKey network host portRange portOffset = none →
      ∃ m, nativeListen network host portRange portOffset p w = (.err m, p, w)) ∧
    (∀ (network host portRange : String) (portOffset : Nat) (laddr : UDPAddr)
        (p : UsagePool NConn) (w : NWorld) (ases : List (String × String)),
      network = "scion+udp" →
      portRange.data.contains '-' = false →
      portOffset = 0 →
      parseUDPAddr (joinHostPort host portRange) = some laddr →
      laddr.port ≠ 0 →
      lookupKey (poolKey network laddr.str) p.entries = none →
      loadEnv w.envVar w.fs = .ok ases →
      lookupKey laddr.ia ases = none →
      nativeListen network host portRange portOffset p w
        = (.err "AS not found in environment",
           { p with calls := p.calls + 1 },
           { w with ctorCount := w.ctorCount + 1 })) := by
  constructor
  · intro network host portRange portOffset p w hk
    unfold nativeListenKey at hk
    unfold nativeListen
    by_cases h1 : network = "scion+udp"
    · rw [if_neg (by simp [h1])] at hk ⊢
      by_cases h2 : portRange.data.contains '-'
      · rw [if_pos h2] at hk ⊢
        exact ⟨_, rfl⟩
      · rw [if_neg h2] at hk ⊢
        by_cases h3 : portOffset = 0
        · rw [if_neg (by simp [h3])] at hk ⊢
          cases hp : parseUDPAddr (joinHostPort host portRange) with
          | none => exact ⟨_, rfl⟩
          | some laddr =>
            rw [hp] at hk
            dsimp only at hk ⊢
            by_cases h4 : laddr.port = 0
            · rw [if_pos h4]
              exact ⟨_, rfl⟩
            · rw [if_neg h4] at hk
              exact absurd hk (by simp)
        · rw [if_pos (by simp [h3])] at hk ⊢
          exact ⟨_, rfl⟩
    · rw [if_pos (by simp [h1])] at hk ⊢
      exact ⟨_, rfl⟩
  · intro network host portRange portOffset laddr p w ases h1 h2 h3 hp h4 hlk hle hia
    subst h1 h3
    unfold nativeListen
    rw [if_neg (by simp), h2, if_neg Bool.false_ne_true, if_neg (by simp), hp]
    dsimp only
    rw [if_neg h4]
    unfold UsagePool.loadOrNew nativeCtor sciondConn findSciond
    simp only [hlk, hle, hia]

/-- Witness for the amended C3: a bogus scheme and a concrete unknown-domain call. -/
theorem c3_config_errors_amended_witness :
    (nativeListenKey "tcp" "h" "7443" 0 = none ∧
      ∃ m, nativeListen "tcp" "h" "7443" 0 (UsagePool.new NConn) c3world
        = (.err m, UsagePool.new NConn, c3world)) ∧
    (("scion+udp" : String) = "scion+udp" ∧
      ("7443" : String).data.contains '-' = false ∧
      (0 : Nat) = 0 ∧
      parseUDPAddr (joinHostPort "1-ff00:0:112,127.0.0.1" "7443") = some c3laddr ∧
      c3laddr.port ≠ 0 ∧
      lookupKey (poolKey "scion+udp" c3laddr.str) (UsagePool.new NConn).entries = none ∧
      loadEnv c3world.envVar c3world.fs = .ok [("1-ff00:0:300", "127.0.0.1:30255")] ∧
      lookupKey c3laddr.ia [("1-ff00:0:300", "127.0.0.1:30255")] = none ∧
      nativeListen "scion+udp" "1-ff00:0:112,127.0.0.1" "7443" 0
          (UsagePool.new NConn) c3world
        = (.err "AS not found in environment",
           ⟨[], 1⟩,
           { c3world with ctorCount := 1 })) := by
  refine ⟨⟨by decide, c3_config_errors_amended.1 "tcp" "h" "7443" 0 (UsagePool.new NConn) c3world (by decide)⟩,
          rfl, by decide, rfl, by decide, by decide, by decide, rfl, by decide, ?_⟩
  exact c3_config_errors_amended.2 "scion+udp" "1-ff00:0:112,127.0.0.1" "7443" 0 c3laddr
    (UsagePool.new NConn) c3world [("1-ff00:0:300", "127.0.0.1:30255")]
    rfl (by decide) rfl (by decide) (by decide) (by decide) rfl (by decide)

/-- A key absent from an association list is not found. -/
theorem lookupKey_eq_none {α : Type} (k : String) (l : List (String × α))
    (h : k ∉ l.map Prod.fst) : lookupKey k l = none := by
  induction l with
  | nil => rfl
  | cons hd t ih =>
    obtain ⟨k2, v⟩ := hd
    simp only [List.map_cons, List.mem_cons] at h
    push_neg at h
    rw [lookupKey, if_neg (Ne.symm h.1)]
    exact ih h.2

/-- Erasing a key from a duplicate-free entry list makes it unfindable. -/
theorem lookupKey_eraseKey_self {V : Type} (k : String) (l : List (String × PoolEntry V))
    (hnd : (l.map Prod.fst).Nodup) : lookupKey k (eraseKey k l) = none := by
  induction l with
  | nil => rfl
  | cons hd t ih =>
    obtain ⟨k2, v⟩ := hd
    simp only [List.map_cons, List.nodup_cons] at hnd
    by_cases hk : k2 = k
    · rw [eraseKey, if_pos hk]
      exact lookupKey_eq_none k t (by rw [← hk]; exact hnd.1)
    · rw [eraseKey, if_neg hk, lookupKey, if_neg hk]
      exact ih hnd.2

/-- Claim C4: Delete on a missing key returns (false, error) and leaves the
pool and world untouched; Delete at refcount 1 removes the entry (so no
later LoadOrNew can find it), runs the teardown exactly once, returns
destroyed = true and propagates the teardown's error without re-inserting;
Delete at refcount above 1 only decrements and returns destroyed = false. -/
theorem c4_delete_semantics {V σ : Type} (p : UsagePool V) (k : String)
    (destruct : V → σ → Option String × σ) (s : σ)
    (hnd : (p.entries.map Prod.fst).Nodup) :
    (lookupKey k p.entries = none →
      p.delete k destruct s = ((false, some "deleting unknown key"), p, s)) ∧
    (∀ v, lookupKey k p.entries = some ⟨1, v⟩ →
      p.delete k destruct s
        = ((true, (destruct v s).1),
           { p with entries := eraseKey k p.entries }, (destruct v s).2) ∧
      lookupKey k (eraseKey k p.entries) = none) ∧
    (∀ n v, lookupKey k p.entries = some ⟨n + 2, v⟩ →
      p.delete k destruct s
        = ((false, none),
           { p with entries := updEntry k (fun e => ⟨e.refs - 1, e.val⟩) p.entries }, s)) := by
  refine ⟨?_, ?_, ?_⟩
  · intro h
    simp [UsagePool.delete, h]
  · intro v h
    refine ⟨?_, lookupKey_eraseKey_self k p.entries hnd⟩
    simp [UsagePool.delete, h]
  · intro n v h
    simp [UsagePool.delete, h]

/-- Witness for C4 on a concrete two-entry pool, exercising all three cases. -/
theorem c4_delete_semantics_witness :
    ((([("a", ⟨1, 5⟩), ("b", ⟨3, 7⟩)] : List (String × PoolEntry Nat)).map Prod.fst).Nodup) ∧
    (UsagePool.delete ⟨[("a", ⟨1, 5⟩), ("b", ⟨3, 7⟩)], 4⟩ "c"
        (fun v s => (some "boom", s + v)) 10
      = ((false, some "deleting unknown key"), ⟨[("a", ⟨1, 5⟩), ("b", ⟨3, 7⟩)], 4⟩, 10)) ∧
    (UsagePool.delete ⟨[("a", ⟨1, 5⟩), ("b", ⟨3, 7⟩)], 4⟩ "a"
        (fun v s => (some "boom", s + v)) 10
      = ((true, some "boom"), ⟨[("b", ⟨3, 7⟩)], 4⟩, 15)) ∧
    (UsagePool.delete ⟨[("a", ⟨1, 5⟩), ("b", ⟨3, 7⟩)], 4⟩ "b"
        (fun v s => (some "boom", s + v)) 10
      = ((false, none), ⟨[("a", ⟨1, 5⟩), ("b", ⟨2, 7⟩)], 4⟩, 10)) := by
  have h := c4_delete_semantics (σ := Nat) ⟨[("a", ⟨1, 5⟩), ("b", ⟨3, 7⟩)], 4⟩ "c"
    (fun v s => (some "boom", s + v)) 10 (by decide)
  have h2 := c4_delete_semantics (σ := Nat) ⟨[("a", ⟨1, 5⟩), ("b", ⟨3, 7⟩)], 4⟩ "a"
    (fun v s => (some "boom", s + v)) 10 (by decide)
  have h3 := c4_delete_semantics (σ := Nat) ⟨[("a", ⟨1, 5⟩), ("b", ⟨3, 7⟩)], 4⟩ "b"
    (fun v s => (some "boom", s + v)) 10 (by decide)
  refine ⟨by decide, ?_, ?_, ?_⟩
  · exact h.1 (by decide)
  · have := (h2.2.1 5 (by decide)).1
    simpa using this
  · have := h3.2.2 1 7 (by decide)
    simpa using this

/-- Claim C5 (the code violates it): a native Listen whose construction hits
a malformed environment file terminates the process with exit code 1 via
sciondConn instead of returning an error, while the scion package's listen
returns the loading error for the same situation. -/
theorem c5_env_failure_exits_process :
    (nativeListen "scion+udp" "1-ff00:0:112,127.0.0.1" "7443" 0
        (UsagePool.new NConn) c5world).1 = .exited 1 ∧
    (scionNetListen "1-ff00:0:112,127.0.0.1:7443" (UsagePool.new SConn)
        ⟨"", [("/etc/scion/environment.json", .badJson)], true, 0, 0, [], []⟩).1
      = .err "loading environment configuration data" := by decide

/-- Claim C6: after a wrapper Close, the conn's one-shot close signal is
observable exactly when the refcount was 1 (the pool ran Destruct, and the
world is exactly the world after that teardown); a Close that leaves other
references intact does not touch the world, so the signal cannot fire from
a mere Close. -/
theorem c6_close_signal_on_teardown (p : UsagePool SConn) (c : SConn) (w : SWorld) (e : PoolEntry SConn)
    (h : lookupKey c.addr p.entries = some e) (hv : e.val = c) (hr : 1 ≤ e.refs)
    (hc : c.id ∉ w.chanClosed) :
    (c.id ∈ (scionClose c p w).2.2.chanClosed ↔ e.refs = 1) ∧
    (e.refs = 1 → (scionClose c p w).2.2 = (scionDestruct c w).2) ∧
    (2 ≤ e.refs →
      (scionClose c p w).2.2 = w ∧
      (scionClose c p w).2.1.entries
        = updEntry c.addr (fun e2 => ⟨e2.refs - 1, e2.val⟩) p.entries) := by
  obtain ⟨r, v⟩ := e
  dsimp only at hv hr ⊢
  subst hv
  unfold scionClose UsagePool.delete
  rw [h]
  dsimp only
  by_cases h1 : r ≤ 1
  · have hr1 : r = 1 := le_antisymm h1 hr
    subst hr1
    rw [if_pos (by omega)]
    dsimp only [scionDestruct]
    refine ⟨?_, fun _ => rfl, fun h2 => absurd h2 (by omega)⟩
    simp
  · rw [if_neg h1]
    exact ⟨⟨fun hmem => absurd hmem hc, fun h2 => absurd h2 (by omega)⟩,
           fun h2 => absurd h2 (by omega), fun _ => ⟨rfl, rfl⟩⟩

/-- Witness for C6 at refcount 2: the signal does not fire on Close. -/
theorem c6_close_signal_on_teardown_witness :
    (lookupKey c6conn.addr c6pool.entries = some ⟨2, c6conn⟩ ∧
      (⟨2, c6conn⟩ : PoolEntry SConn).val = c6conn ∧
      1 ≤ (⟨2, c6conn⟩ : PoolEntry SConn).refs ∧
      c6conn.id ∉ c6world.chanClosed) ∧
    ((c6conn.id ∈ (scionClose c6conn c6pool c6world).2.2.chanClosed ↔
        (⟨2, c6conn⟩ : PoolEntry SConn).refs = 1) ∧
      ((⟨2, c6conn⟩ : PoolEntry SConn).refs = 1 →
        (scionClose c6conn c6pool c6world).2.2 = (scionDestruct c6conn c6world).2) ∧
      (2 ≤ (⟨2, c6conn⟩ : PoolEntry SConn).refs →
        (scionClose c6conn c6pool c6world).2.2 = c6world ∧
        (scionClose c6conn c6pool c6world).2.1.entries
          = updEntry c6conn.addr (fun e2 => ⟨e2.refs - 1, e2.val⟩) c6pool.entries)) := by
  refine ⟨⟨by decide, rfl, by decide, by decide⟩, ?_⟩
  exact c6_close_signal_on_teardown c6pool c6conn c6world ⟨2, c6conn⟩ (by decide) rfl (by decide) (by decide)

/-- Claim C7: Accept on the blocked listener is pending while the close
signal has not fired; whenever it returns, the connection is nil and the
error reads listener closed; a Close that leaves references does not unblock
it, and the Close that tears the resource down does. -/
theorem c7_blocked_accept_semantics (p : UsagePool SConn) (c : SConn) (w : SWorld) (e : PoolEntry SConn)
    (h : lookupKey c.addr p.entries = some e) (hv : e.val = c)
    (hc : c.id ∉ w.chanClosed) :
    blockedAccept c w = none ∧
    (∀ (w2 : SWorld) (res : Option Nat × String),
      blockedAccept c w2 = some res → res = (none, "listener closed")) ∧
    (2 ≤ e.refs → blockedAccept c (scionClose c p w).2.2 = none) ∧
    (e.refs = 1 → blockedAccept c (scionClose c p w).2.2 = some (none, "listener closed")) := by
  obtain ⟨r, v⟩ := e
  dsimp only at hv ⊢
  subst hv
  have hcontains : w.chanClosed.contains v.id = false := by
    rw [← Bool.not_eq_true]
    intro hx
    exact hc (by simpa [List.contains, List.elem_iff] using hx)
  refine ⟨?_, ?_, ?_, ?_⟩
  · unfold blockedAccept
    rw [hcontains]
    rfl
  · intro w2 res hres
    unfold blockedAccept at hres
    by_cases hx : w2.chanClosed.contains v.id
    · rw [if_pos hx] at hres
      exact (Option.some_inj.mp hres).symm
    · rw [if_neg hx] at hres
      exact absurd hres (by simp)
  · intro h2
    unfold scionClose UsagePool.delete
    rw [h]
    dsimp only
    rw [if_neg (by omega)]
    unfold blockedAccept
    dsimp only
    rw [hcontains]
    rfl
  · intro h2
    subst h2
    unfold scionClose UsagePool.delete
    rw [h]
    dsimp only
    rw [if_pos (by omega)]
    unfold blockedAccept scionDestruct
    dsimp only
    rw [show ((v.id :: w.chanClosed).contains v.id) = true by simp [List.contains, List.elem_iff]]
    rfl

/-- Witness for C7 at refcount 1: teardown unblocks Accept with the closed error. -/
theorem c7_blocked_accept_semantics_witness :
    (lookupKey c7conn.addr c7pool.entries = some ⟨1, c7conn⟩ ∧
      (⟨1, c7conn⟩ : PoolEntry SConn).val = c7conn ∧
      c7conn.id ∉ c7world.chanClosed) ∧
    (blockedAccept c7conn c7world = none ∧
      (∀ (w2 : SWorld) (res : Option Nat × String),
        blockedAccept c7conn w2 = some res → res = (none, "listener closed")) ∧
      (2 ≤ (⟨1, c7conn⟩ : PoolEntry SConn).refs →
        blockedAccept c7conn (scionClose c7conn c7pool c7world).2.2 = none) ∧
      ((⟨1, c7conn⟩ : PoolEntry SConn).refs = 1 →
        blockedAccept c7conn (scionClose c7conn c7pool c7world).2.2
          = some (none, "listener closed"))) := by
  refine ⟨⟨by decide, rfl, by decide⟩, ?_⟩
  exact c7_blocked_accept_semantics c7pool c7conn c7world ⟨1, c7conn⟩ (by decide) rfl (by decide)

/-- poolKey is injective in the address for a fixed network name. -/
theorem poolKey_right_inj (n a b : String) (h : poolKey n a = poolKey n b) : a = b := by
  unfold poolKey at h
  have hd := congrArg String.data h
  simp only [String.data_append, List.append_assoc] at hd
  exact String.ext (List.append_cancel_left (List.append_cancel_left hd))

/-- Successful key computation forces the scion+udp scheme, a parsed address
with nonzero port, and the poolKey shape. -/
theorem nativeListenKey_inv (n h pr : String) (po : Nat) (k : String)
    (hk : nativeListenKey n h pr po = some k) :
    n = "scion+udp" ∧
    ∃ laddr, parseUDPAddr (joinHostPort h pr) = some laddr ∧
      laddr.port ≠ 0 ∧ k = poolKey "scion+udp" laddr.str := by
  unfold nativeListenKey at hk
  by_cases h1 : n = "scion+udp"
  · subst h1
    rw [if_neg (by simp)] at hk
    by_cases h2 : pr.data.contains '-'
    · rw [if_pos h2] at hk
      exact absurd hk (by simp)
    · rw [if_neg h2] at hk
      by_cases h3 : po = 0
      · rw [if_neg (by simp [h3])] at hk
        cases hp : parseUDPAddr (joinHostPort h pr) with
        | none => rw [hp] at hk; exact absurd hk (by simp)
        | some laddr =>
          rw [hp] at hk
          dsimp only at hk
          by_cases h4 : laddr.port = 0
          · rw [if_pos h4] at hk
            exact absurd hk (by simp)
          · rw [if_neg h4] at hk
            exact ⟨rfl, laddr, rfl, h4, (Option.some_inj.mp hk).symm⟩
      · rw [if_pos (by simp [h3])] at hk
        exact absurd hk (by simp)
  · rw [if_pos (by simp [h1])] at hk
    exact absurd hk (by simp)

/-- Counterexample to claim C8 as stated: in the scion package the pool key
is the raw address with no scheme component, so a ListenBlocked under the
scion scheme and a Listen under the scion+quic scheme share one key and one
pooled resource (the second call reuses the first's connection) although
their schemes differ. -/
theorem c8_key_shared_across_schemes_counterexample :
    c8r1.1 = .ok ⟨0, c8addr⟩ false ∧
    c8r2.1 = .ok ⟨0, c8addr⟩ true ∧
    c8r2.2.1.entries = [(c8addr, ⟨2, ⟨0, c8addr⟩⟩)] ∧
    c8r2.2.2.ctorCount = 1 ∧
    "scion" ≠ "scion+quic" := by decide

/-- Claim C8 as amended, for the native Listen: any two calls that reach the
pool necessarily carry the same scheme (scion+udp), and their pool keys are
equal exactly when their addresses resolve to the same fully-resolved
address. -/
theorem c8_native_key_iff_amended (n1 h1 pr1 n2 h2 pr2 : String) (po1 po2 : Nat) (k1 k2 : String)
    (hk1 : nativeListenKey n1 h1 pr1 po1 = some k1)
    (hk2 : nativeListenKey n2 h2 pr2 po2 = some k2) :
    n1 = n2 ∧
    (k1 = k2 ↔
      (parseUDPAddr (joinHostPort h1 pr1)).map UDPAddr.str
        = (parseUDPAddr (joinHostPort h2 pr2)).map UDPAddr.str) := by
  obtain ⟨hn1, laddr1, hp1, _, hkk1⟩ := nativeListenKey_inv n1 h1 pr1 po1 k1 hk1
  obtain ⟨hn2, laddr2, hp2, _, hkk2⟩ := nativeListenKey_inv n2 h2 pr2 po2 k2 hk2
  refine ⟨hn1.trans hn2.symm, ?_⟩
  rw [hp1, hp2, hkk1, hkk2]
  constructor
  · intro hk
    have hstr := poolKey_right_inj _ _ _ hk
    simp [hstr]
  · intro hs
    have hs2 : laddr1.str = laddr2.str := by simpa using hs
    rw [hs2]

/-- Witness for the amended C8 on two concrete ports. -/
theorem c8_native_key_iff_amended_witness :
    (nativeListenKey "scion+udp" "1-ff00:0:112,127.0.0.1" "7443" 0
        = some "scion+udp:1-ff00:0:112,127.0.0.1:7443" ∧
      nativeListenKey "scion+udp" "1-ff00:0:112,127.0.0.1" "7444" 0
        = some "scion+udp:1-ff00:0:112,127.0.0.1:7444") ∧
    (("scion+udp" : String) = "scion+udp" ∧
      (("scion+udp:1-ff00:0:112,127.0.0.1:7443" : String)
          = "scion+udp:1-ff00:0:112,127.0.0.1:7444" ↔
        (parseUDPAddr (joinHostPort "1-ff00:0:112,127.0.0.1" "7443")).map UDPAddr.str
          = (parseUDPAddr (joinHostPort "1-ff00:0:112,127.0.0.1" "7444")).map UDPAddr.str)) := by
  refine ⟨⟨by decide, by decide⟩, ?_⟩
  exact c8_native_key_iff_amended "scion+udp" "1-ff00:0:112,127.0.0.1" "7443"
    "scion+udp" "1-ff00:0:112,127.0.0.1" "7444" 0 0
    "scion+udp:1-ff00:0:112,127.0.0.1:7443" "scion+udp:1-ff00:0:112,127.0.0.1:7444"
    (by decide) (by decide)

/-- Claim C9 (partly violated by the code): the loader reads the file at the
SCION_ENV_FILE path when the variable is nonempty (the default-path file is
ignored then) and at the default path otherwise, and it re-reads the file on
each construction attempt (the same call succeeds once the custom-path file
appears); but a read failure terminates the process instead of failing that
Listen call. -/
theorem c9_env_loader_path_and_exit :
    (nativeListen "scion+udp" "1-ff00:0:112,127.0.0.1" "7443" 0
        (UsagePool.new NConn) c9missing).1 = .exited 1 ∧
    (nativeListen "scion+udp" "1-ff00:0:112,127.0.0.1" "7443" 0
        (UsagePool.new NConn) c9present).1 = .ok ⟨0, reuseAddr⟩ false ∧
    (nativeListen "scion+udp" "1-ff00:0:112,127.0.0.1" "7443" 0
        (UsagePool.new NConn) c9default).1 = .ok ⟨0, reuseAddr⟩ false := by decide

/-- Claim C10: ServeHTTP appends X-SCION: on and X-SCION-Remote-Addr exactly
when the remote address parses as a SCION UDP address and X-SCION: off
otherwise, and in both cases returns the next handler's result on the
tagged request. -/
theorem c10_middleware_headers {α : Type} (next : HRequest → α) (r : HRequest) :
    serveHTTP next r
      = next { r with headers := r.headers ++
          (if (parseUDPAddr r.remoteAddr).isSome then
            [("X-SCION", "on"), ("X-SCION-Remote-Addr", r.remoteAddr)]
           else [("X-SCION", "off")]) } := by
  unfold serveHTTP
  cases h : parseUDPAddr r.remoteAddr <;> simp [h]

end CaddyScion
